import Mathlib

/-!
# A verification model of `animate.py`

This file gives a shallow embedding of the keyframe-interpolation engine in
`animate.py`: the runtime values the blend functions dispatch on, the
`lerp`/`invlerp` single-dispatch families, the `Animation` state machine
(`start` / `next_pair` / `update` / `value`), the `wavey_y` path generator,
and the `AnimateDemo` driver loop (`events` / `update` / `run`).

Python floats are embedded as exact rationals (`ℚ`); Python exceptions are
embedded as the `Except` monad with an explicit error kind; `StopIteration`
raised inside `Animation.next_pair` is embedded as `Except Animation`, where
the error payload carries the object state as mutated up to the raise point
(Python mutates attributes in place before an exception propagates).
-/

/-- The runtime shapes of values that flow through the engine: Python's
`None`, `int`, `float`, `tuple`, `pygame.Color` (4 integer channels), and
`pygame.Surface` (opaque, identified by an id), plus `str` as a
representative unregistered shape. -/
inductive PyVal : Type where
  | none : PyVal
  | int : ℤ → PyVal
  | float : ℚ → PyVal
  | tuple : List PyVal → PyVal
  | color : ℤ → ℤ → ℤ → ℤ → PyVal
  | surface : ℕ → PyVal
  | str : String → PyVal

/-- The Python exception kinds the embedded code can raise. -/
inductive PyErr : Type where
  | typeError : PyErr
  | zeroDivisionError : PyErr
  | nameError : PyErr
  | valueError : PyErr
deriving DecidableEq

/-- Numeric view of a value: `int` and `float` are numbers, nothing else is.
Arithmetic between a number and a non-number raises `TypeError` in Python. -/
def toNum : PyVal → Option ℚ
  | .int n => some (n : ℚ)
  | .float q => some q
  | _ => Option.none

/-- The elements `zip` sees when iterating a value: tuples yield their items,
a `pygame.Color` yields its four integer channels, a string yields its
characters; numbers, `None` and surfaces are not iterable. -/
def iterElems : PyVal → Option (List PyVal)
  | .tuple xs => some xs
  | .color r g b a => some [.int r, .int g, .int b, .int a]
  | .str s => some (s.data.map fun c => .str (String.mk [c]))
  | _ => Option.none

/-- Python's `int()` on a rational float value truncates toward zero. -/
def pyTrunc (q : ℚ) : ℤ :=
  if q < 0 then ⌈q⌉ else ⌊q⌋

/-- Source `_lerp(a, b, t) = a * (1 - t) + b * t` (animate.py line 260). -/
def _lerp (a b t : ℚ) : ℚ := a * (1 - t) + b * t

/-- Per-channel color blend: each channel of `a` is an `int`, so each zipped
pair dispatches to the numeric `lerp` and is then truncated by `int()`. -/
def chanZip : List ℤ → List PyVal → ℚ → Except PyErr (List ℤ)
  | [], _, _ => .ok []
  | _ :: _, [], _ => .ok []
  | c :: cs, y :: ys, t =>
      match toNum y with
      | some yq => do
          let rest ← chanZip cs ys t
          .ok (pyTrunc (_lerp (c : ℚ) yq t) :: rest)
      | Option.none => .error .typeError

mutual

/-- The `lerp` single-dispatch family (animate.py lines 263-289), dispatched
on the runtime shape of the first argument:
* `int` / `float`: `_lerp`; a non-numeric second argument is a `TypeError`.
* `tuple`: element-wise recursion over `zip(a, b)` (which truncates to the
  shorter operand); a non-iterable second argument is a `TypeError`.
* `Color`: per-channel numeric blend, truncated by `int()`, rebuilt through
  the `Color` constructor (which needs exactly 4 channels, each in 0..255).
* `Surface`: returns `b` when `t > 1/2`, otherwise returns `a` unchanged.
* anything else hits the base implementation, whose body is `pass`, so the
  call silently returns `None`. -/
def lerp : PyVal → PyVal → ℚ → Except PyErr PyVal
  | .int a, b, t =>
      match toNum b with
      | some bq => .ok (.float (_lerp (a : ℚ) bq t))
      | Option.none => .error .typeError
  | .float a, b, t =>
      match toNum b with
      | some bq => .ok (.float (_lerp a bq t))
      | Option.none => .error .typeError
  | .tuple xs, b, t =>
      match iterElems b with
      | some ys => (lerpZip xs ys t).map PyVal.tuple
      | Option.none => .error .typeError
  | .color r g bl al, b, t =>
      match iterElems b with
      | some ys =>
          match chanZip [r, g, bl, al] ys t with
          | .error e => .error e
          | .ok chans =>
              match chans with
              | [r', g', b', a'] =>
                  if 0 ≤ r' ∧ r' ≤ 255 ∧ 0 ≤ g' ∧ g' ≤ 255 ∧ 0 ≤ b' ∧ b' ≤ 255
                      ∧ 0 ≤ a' ∧ a' ≤ 255 then
                    .ok (.color r' g' b' a')
                  else .error .valueError
              | _ => .error .typeError
      | Option.none => .error .typeError
  | .surface n, b, t => if 1/2 < t then .ok b else .ok (.surface n)
  | _, _, _ => .ok .none
termination_by structural a => a

/-- Element-wise blending of zipped tuple items: `zip` stops at the shorter
list, and the first failing element aborts the whole tuple. -/
def lerpZip : List PyVal → List PyVal → ℚ → Except PyErr (List PyVal)
  | [], _, _ => .ok []
  | _ :: _, [], _ => .ok []
  | x :: xs, y :: ys, t => do
      let v ← lerp x y t
      let vs ← lerpZip xs ys t
      .ok (v :: vs)
termination_by structural xs => xs

end

/-- Source `_invlerp(a, b, x) = (x - a) / (b - a)` (animate.py line 291); a
zero-width interval raises `ZeroDivisionError`. -/
def _invlerp (a b x : ℚ) : Except PyErr ℚ :=
  if b - a = 0 then .error .zeroDivisionError else .ok ((x - a) / (b - a))

/-- The `invlerp` single-dispatch family (animate.py lines 294-304):
* `int`: `_invlerp`, returning a float; non-numeric `b` or `x` is a
  `TypeError`.
* `tuple`: the source's handler is
  `tuple(_invlerp(i1, i2, t) for i1, i2 in zip(a, b))` — the name `t` is
  undefined in that scope and `x` is ignored, so producing any element
  raises `NameError`; only an empty `zip` yields the empty tuple.
* any other first-argument shape (including `float`) hits the base
  implementation, whose body is `pass`, so the call silently returns
  `None`. -/
def invlerp : PyVal → PyVal → PyVal → Except PyErr PyVal
  | .int a, b, x =>
      match toNum x, toNum b with
      | some xq, some bq => (_invlerp (a : ℚ) bq xq).map PyVal.float
      | _, _ => .error .typeError
  | .tuple xs, b, _ =>
      match iterElems b with
      | some ys =>
          match xs, ys with
          | [], _ => .ok (.tuple [])
          | _, [] => .ok (.tuple [])
          | _ :: _, _ :: _ => .error .nameError
      | Option.none => .error .typeError
  | _, _, _ => .ok .none

-- A few sanity evaluations of the blend family on concrete inputs.
example : lerp (.int 0) (.int 10) 1 = .ok (.float 10) := by with_unfolding_all rfl
example : lerp (.tuple [.int 0, .int 0]) (.tuple [.int 2, .int 4]) (1/2)
    = .ok (.tuple [.float 1, .float 2]) := by with_unfolding_all rfl
example : invlerp (.int 0) (.int 10) (.float 5) = .ok (.float (1/2)) := by
  with_unfolding_all rfl
example : invlerp (.int 3) (.int 3) (.float 5) = .error .zeroDivisionError := by
  with_unfolding_all rfl

/-! ## The `Animation` state machine -/

/-- Source `nwise(values)` with the default `n = 2` (animate.py lines 312-320):
overlapping pairs `(v0,v1), (v1,v2), …`. -/
def nwise (l : List PyVal) : List (PyVal × PyVal) := l.zip l.tail

/-- The pair iterator built by `Animation.start`: either a plain one-pass
iterator over the pair list (`iterfunc = iter`) or `itertools.cycle` over it
(`iterfunc = it.cycle`), which replays the list forever (and is immediately
exhausted on an empty list). -/
structure PairIter where
  elems : List (PyVal × PyVal)
  idx : ℕ
  cyclic : Bool

/-- Method `next()` on the pair iterator; `Option.none` is `StopIteration`.  An
exhausted iterator is left unchanged and stays exhausted. -/
def PairIter.next (it : PairIter) : Option ((PyVal × PyVal) × PairIter) :=
  if h : it.idx < it.elems.length then
    some (it.elems.get ⟨it.idx, h⟩, { it with idx := it.idx + 1 })
  else if h2 : it.cyclic = true ∧ 0 < it.elems.length then
    some (it.elems.get ⟨it.idx % it.elems.length, Nat.mod_lt _ h2.2⟩,
      { it with idx := it.idx % it.elems.length + 1 })
  else Option.none

/-- The duration sources the program builds: a finite list (a plain
iterator), `itertools.repeat d`, or `itertools.cycle l`. -/
inductive DurSource : Type where
  | fin : List ℤ → DurSource
  | rep : ℤ → DurSource
  | cyc : List ℤ → DurSource
deriving DecidableEq

/-- The lazy duration iterator: a source plus a cursor. -/
structure DurIter where
  src : DurSource
  idx : ℕ
deriving DecidableEq

/-- Method `next()` on the duration iterator; `Option.none` is `StopIteration`. -/
def DurIter.next (it : DurIter) : Option (ℤ × DurIter) :=
  match it.src with
  | .fin l =>
      match l[it.idx]? with
      | some d => some (d, { it with idx := it.idx + 1 })
      | Option.none => Option.none
  | .rep d => some (d, { it with idx := it.idx + 1 })
  | .cyc l =>
      match l[it.idx % l.length]? with
      | some d => some (d, { it with idx := it.idx + 1 })
      | Option.none => Option.none

/-- All durations the source can ever yield are positive. -/
def DurSource.allPos : DurSource → Bool
  | .fin l => l.all (fun d => 0 < d)
  | .rep d => 0 < d
  | .cyc l => l.all (fun d => 0 < d)

/-- The blend functions the program installs on its `Animation`s whose
`value()` stays in the `PyVal` world: the dispatched `lerp` default and the
`hold` function (`lambda a, b, t: a`) used for the actor animation. -/
inductive LerpFn : Type where
  | dispatch : LerpFn
  | hold : LerpFn
deriving DecidableEq

/-- Apply a blend function. -/
def LerpFn.apply : LerpFn → PyVal → PyVal → ℚ → Except PyErr PyVal
  | .dispatch, a, b, t => lerp a b t
  | .hold, a, _, _ => .ok a

/-- The `Animation` object (animate.py lines 14-61).  The `extra` attribute
bag is modelled by the two extras the program actually installs: the
destination attribute name `attr` and the presence of a `next_callback`
(whose invocations are counted in `ncalls`). -/
structure Animation where
  durations : DurIter
  values : List PyVal
  lerpfunc : LerpFn
  cyclic : Bool
  attr : String
  hasCallback : Bool
  ncalls : ℕ
  a : PyVal
  b : PyVal
  current_duration : ℤ
  frame : ℤ
  pairs : PairIter
  running : Bool

/-- Method `Animation.next_pair` (lines 42-46): pull the next pair, then the next
duration, then fire the callback.  A `StopIteration` from either `next` is
an `.error` carrying the state as mutated up to the raise point: a failing
duration pull has already overwritten `a`, `b` and advanced the pair
iterator. -/
def Animation.next_pair (s : Animation) : Except Animation Animation :=
  match s.pairs.next with
  | Option.none => .error s
  | some (ab, pairs') =>
      match s.durations.next with
      | Option.none => .error { s with a := ab.1, b := ab.2, pairs := pairs' }
      | some (d, durs') =>
          .ok { s with
                a := ab.1
                b := ab.2
                pairs := pairs'
                current_duration := d
                durations := durs'
                ncalls := if s.hasCallback then s.ncalls + 1 else s.ncalls }

/-- Method `Animation.start` (lines 34-40): reset the frame counter, rebuild the
pair iterator from the original values with the configured iteration
policy, set `running`, and pull the first pair. -/
def Animation.start (s : Animation) : Except Animation Animation :=
  Animation.next_pair
    { s with frame := 0, pairs := ⟨nwise s.values, 0, s.cyclic⟩, running := true }

/-- Method `Animation.value` (lines 48-50): `lerpfunc(a, b, frame / duration)`.
A zero duration is Python's `ZeroDivisionError`. -/
def Animation.value (s : Animation) : Except PyErr PyVal :=
  if s.current_duration = 0 then .error .zeroDivisionError
  else s.lerpfunc.apply s.a s.b ((s.frame : ℚ) / (s.current_duration : ℚ))

/-- Method `Animation.update` (lines 52-61): advance the frame counter while it is
below the duration; once it has reached the duration, try to pull the next
pair — on success reset the frame counter, on `StopIteration` clear
`running` (keeping whatever `next_pair` mutated before raising). -/
def Animation.update (s : Animation) (advance : ℤ) : Animation :=
  if s.frame < s.current_duration then { s with frame := s.frame + advance }
  else
    match s.next_pair with
    | .error s' => { s' with running := false }
    | .ok s' => { s' with frame := 0 }

/-- The `Animation` constructor (lines 16-32): store the configuration and
immediately `start()`. -/
def Animation.make (durs : DurSource) (values : List PyVal) (lerpfunc : LerpFn)
    (cyclic : Bool) (attr : String) (hasCallback : Bool) :
    Except Animation Animation :=
  Animation.start
    { durations := ⟨durs, 0⟩, values := values, lerpfunc := lerpfunc,
      cyclic := cyclic, attr := attr, hasCallback := hasCallback, ncalls := 0,
      a := .none, b := .none, current_duration := 0, frame := 0,
      pairs := ⟨[], 0, cyclic⟩, running := false }

/-- A successfully constructed `Animation`, as a total function (the
constructions used below all succeed; on failure the partially built state
is returned, which no theorem relies on). -/
def animOf (durs : DurSource) (values : List PyVal) (lerpfunc : LerpFn)
    (cyclic : Bool) : Animation :=
  match Animation.make durs values lerpfunc cyclic "" false with
  | .ok s => s
  | .error s => s

/-- Iterated state: `n` calls of `update(1)` — the default `advance` used by the demo. -/
def Animation.run (s : Animation) : ℕ → Animation
  | 0 => s
  | n + 1 => (s.run n).update 1

-- Sanity: the lifecycle over `[0, 10, 20]` with uniform duration 2.
example : ((animOf (.rep 2) [.int 0, .int 10, .int 20] .dispatch false).run 2).value
    = .ok (.float 10) := by with_unfolding_all rfl
example : ((animOf (.rep 2) [.int 0, .int 10, .int 20] .dispatch false).run 6).running
    = false := by with_unfolding_all rfl
example : ((animOf (.rep 2) [.int 0, .int 10, .int 20] .dispatch false).run 6).value
    = .ok (.float 20) := by with_unfolding_all rfl

/-! ## The `wavey_y` path generator -/

/-- Python tuple unpacking `x, y = position` for the two coordinates. -/
def unpack2 : PyVal → Except PyErr (PyVal × PyVal)
  | .tuple [x, y] => .ok (x, y)
  | .tuple _ => .error .valueError
  | _ => .error .typeError

/-- The computable core of `wavey_y.__call__` (animate.py lines 84-90):
unpack both positions, blend `x = lerp(x1, x2, time)`, and recover the
progress fraction `time_to_x = invlerp(x1, x2, x)`.  The subsequent
multiplication `time_to_x * math.tau * waves` requires both results to be
numbers (a non-numeric `time_to_x`, e.g. the `None` from an unregistered
`invlerp` shape, is a `TypeError`). -/
def wavey_progress (position1 position2 : PyVal) (time : ℚ) :
    Except PyErr (ℚ × ℚ) := do
  let xy1 ← unpack2 position1
  let xy2 ← unpack2 position2
  let xv ← lerp xy1.1 xy2.1 time
  let pv ← invlerp xy1.1 xy2.1 xv
  match toNum xv, toNum pv with
  | some xq, some pq => .ok (xq, pq)
  | _, _ => .error .typeError

/-- Method `wavey_y.__call__`: `(x, centery + sin(time_to_x * tau * waves) * radius)`.
The float constant `math.tau` is embedded as the exact real `2π`. -/
noncomputable def wavey_y (radius centery : ℚ) (waves : ℤ)
    (position1 position2 : PyVal) (time : ℚ) : Except PyErr (ℚ × ℝ) :=
  (wavey_progress position1 position2 time).map fun xp =>
    (xp.1,
      (centery : ℝ) + Real.sin ((xp.2 : ℝ) * (2 * Real.pi) * (waves : ℝ)) * (radius : ℝ))

/-! ## The `AnimateDemo` driver -/

/-- The events the driver reacts to: `pygame.QUIT`, a `KEYDOWN` of one of
the two quit keys (`K_ESCAPE`, `K_q`), and anything else. -/
inductive Event : Type where
  | quit : Event
  | keyQuit : Event
  | other : Event
deriving DecidableEq

/-- A `pygame.Rect` as the driver uses it: position and size. -/
structure PRect where
  x : ℚ
  y : ℚ
  w : ℚ
  h : ℚ
deriving DecidableEq

/-- Property `rect.center`. -/
def PRect.center (r : PRect) : ℚ × ℚ := (r.x + r.w / 2, r.y + r.h / 2)

/-- A 2-tuple of numbers, as assigned into a rect attribute. -/
def toPoint : PyVal → Option (ℚ × ℚ)
  | .tuple [px, py] =>
      match toNum px, toNum py with
      | some qx, some qy => some (qx, qy)
      | _, _ => Option.none
  | _ => Option.none

/-- Assignment `setattr(rect, attr, value)` for the two attributes the demo writes
(`topleft` and `center`); anything else, or a non-point value, is a crash
(`Option.none`). -/
def PRect.setattr (r : PRect) (attr : String) (v : PyVal) : Option PRect :=
  match toPoint v with
  | some (px, py) =>
      if attr = "topleft" then some { r with x := px, y := py }
      else if attr = "center" then
        some { r with x := px - r.w / 2, y := py - r.h / 2 }
      else Option.none
  | Option.none => Option.none

/-- Append to the trail deque (`deque(maxlen=60)`): the oldest entry (at the
head) is evicted when the deque is full. -/
def trailAppend (t : List (ℚ × ℚ)) (p : ℚ × ℚ) : List (ℚ × ℚ) :=
  if t.length < 60 then t ++ [p] else (t ++ [p]).drop 1

/-- The `AnimateDemo` driver state: the independently running actor
animation, the optional active positional animation, the iterator of
remaining animations, the tracked rect, the trail history, the pygame
event queue, the `running` flag, and an instrumentation counter of how
many quit events `post_quit` has posted. -/
structure DemoState where
  actor : Animation
  animation : Option Animation
  animations : List Animation
  rect : PRect
  trail : List (ℚ × ℚ)
  queue : List Event
  running : Bool
  quitCount : ℕ

/-- Function `post_quit()` (animate.py lines 322-323): post a `pygame.QUIT` event to
the event queue. -/
def post_quit (s : DemoState) : DemoState :=
  { s with queue := s.queue ++ [.quit], quitCount := s.quitCount + 1 }

/-- Method `AnimateDemo.events` (lines 123-129): drain the event queue
(`pygame.event.get()`), set `running := false` on `QUIT`, and re-post a
quit event on a quit-key `KEYDOWN` (delivered on a later drain). -/
def AnimateDemo.events (s : DemoState) : DemoState :=
  (s.queue.foldl
    (fun st ev =>
      match ev with
      | .quit => { st with running := false }
      | .keyQuit => post_quit st
      | .other => st)
    { s with queue := [] })

/-- Method `AnimateDemo.next_animation` (lines 131-137): pull the next animation
from the iterator, or clear the slot on exhaustion; a freshly pulled
animation is `start()`ed (a `StopIteration` escaping `start` crashes the
program: `Option.none`). -/
def AnimateDemo.next_animation (s : DemoState) : Option DemoState :=
  match s.animations with
  | [] => some { s with animation := Option.none }
  | a :: rest =>
      match a.start with
      | .ok a' => some { s with animation := some a', animations := rest }
      | .error _ => Option.none

/-- Method `AnimateDemo.update` (lines 139-151): always advance the actor
animation; then, if a positional animation is active, advance it, write its
value into the rect, append the rect's center to the trail, and hand over
to the next animation when it stops running; with no active animation,
drain one trail entry per tick, and once the trail is empty post a quit
event.  `Option.none` models an uncaught exception. -/
def AnimateDemo.update (s : DemoState) : Option DemoState :=
  let s1 := { s with actor := s.actor.update 1 }
  match s1.animation with
  | some anim =>
      let anim2 := anim.update 1
      match anim2.value with
      | .error _ => Option.none
      | .ok v =>
          match s1.rect.setattr anim2.attr v with
          | Option.none => Option.none
          | some r =>
              let s2 := { s1 with
                          animation := some anim2
                          rect := r
                          trail := trailAppend s1.trail r.center }
              if anim2.running then some s2 else AnimateDemo.next_animation s2
  | Option.none =>
      match s1.trail with
      | _ :: rest => some { s1 with trail := rest }
      | [] => some (post_quit s1)

/-- One iteration of the `AnimateDemo.run` loop body (lines 187-194):
`events()` then `update()` (drawing does not touch the modelled state). -/
def AnimateDemo.tick (s : DemoState) : Option DemoState :=
  AnimateDemo.update (AnimateDemo.events s)

/-- Up to `fuel` iterations of the `while self.running` loop. -/
def AnimateDemo.runFor (s : DemoState) : ℕ → Option DemoState
  | 0 => some s
  | n + 1 =>
      if s.running then (AnimateDemo.tick s).bind (fun s' => AnimateDemo.runFor s' n)
      else some s

/-! ## Helper lemmas about the engine -/

/-- An `update` on a finished animation whose pair iterator is exhausted is
the identity: the pair pull raises `StopIteration` again before anything is
mutated. -/
theorem Animation.update_exhausted (s : Animation) (adv : ℤ)
    (hex : s.pairs.next = Option.none) (hfr : ¬ s.frame < s.current_duration)
    (hrun : s.running = false) : s.update adv = s := by
  unfold Animation.update Animation.next_pair
  rw [if_neg hfr, hex]
  obtain ⟨du, va, lf, cy, att, hc, nc, a, b, cd, fr, pa, ru⟩ := s
  simp only at hrun
  rw [hrun]

/-- Splitting a `run` of `m + n` default updates. -/
theorem Animation.run_add (s : Animation) (m n : ℕ) :
    s.run (m + n) = (s.run m).run n := by
  induction n with
  | zero => rfl
  | succ k ih => rw [← Nat.add_assoc, Animation.run, ih, Animation.run]

/-- An `update` strictly inside a segment only advances the frame counter. -/
theorem Animation.update_advance (s : Animation) (adv : ℤ)
    (h : s.frame < s.current_duration) :
    s.update adv = { s with frame := s.frame + adv } := by
  unfold Animation.update
  rw [if_pos h]

/-- While the frame counter stays at most the duration, each default
`update` advances it by exactly one and touches nothing else. -/
theorem Animation.run_frames (s : Animation) (h0 : s.frame = 0) (k : ℕ)
    (hk : (k : ℤ) ≤ s.current_duration) :
    s.run k = { s with frame := (k : ℤ) } := by
  induction k with
  | zero =>
      rw [Nat.cast_zero, ← h0]
      rfl
  | succ k ih =>
      have hk1 : (k : ℤ) ≤ s.current_duration := by push_cast at hk ⊢; omega
      have hlt : (k : ℤ) < s.current_duration := by push_cast at hk ⊢; omega
      rw [Animation.run, ih hk1, Animation.update_advance _ 1 hlt]
      push_cast
      rfl

/-- A positive duration source stays positive and only yields positive
durations. -/
theorem DurIter.next_pos (it : DurIter) (h : it.src.allPos = true) (d : ℤ)
    (it' : DurIter) (hn : it.next = some (d, it')) :
    0 < d ∧ it'.src.allPos = true := by
  obtain ⟨src, idx⟩ := it
  cases src with
  | fin l =>
      unfold DurIter.next at hn
      simp only at hn
      cases hg : l[idx]? with
      | none => rw [hg] at hn; exact absurd hn (by simp)
      | some d0 =>
          rw [hg] at hn
          simp only [Option.some.injEq, Prod.mk.injEq] at hn
          obtain ⟨rfl, rfl⟩ := hn
          refine ⟨?_, h⟩
          have hmem : d0 ∈ l := List.getElem?_mem hg
          simp only [DurSource.allPos, List.all_eq_true, decide_eq_true_eq] at h
          exact h d0 hmem
  | rep d1 =>
      unfold DurIter.next at hn
      simp only [Option.some.injEq, Prod.mk.injEq] at hn
      obtain ⟨rfl, rfl⟩ := hn
      simp only [DurSource.allPos, decide_eq_true_eq] at h
      exact ⟨h, by simpa [DurSource.allPos] using h⟩
  | cyc l =>
      unfold DurIter.next at hn
      simp only at hn
      cases hg : l[idx % l.length]? with
      | none => rw [hg] at hn; exact absurd hn (by simp)
      | some d0 =>
          rw [hg] at hn
          simp only [Option.some.injEq, Prod.mk.injEq] at hn
          obtain ⟨rfl, rfl⟩ := hn
          refine ⟨?_, h⟩
          have hmem : d0 ∈ l := List.getElem?_mem hg
          simp only [DurSource.allPos, List.all_eq_true, decide_eq_true_eq] at h
          exact h d0 hmem

/-! ## Claim C1: frame clamping and the blend fraction -/

/-- A freshly started two-value animation `[0, 10]` with uniform duration
10, as built by the constructor. -/
def clampAnim : Animation := animOf (.rep 10) [.int 0, .int 10] .dispatch false

theorem clampAnim_frame : clampAnim.frame = 0 := by with_unfolding_all rfl

theorem clampAnim_duration : clampAnim.current_duration = 10 := by
  with_unfolding_all rfl

/-- C1 counterexample: a single `update(15)` on a fresh segment of duration
10 leaves the frame counter at 15 — it is **not** clamped to the duration —
and `value()` consequently uses the out-of-range blend fraction `3/2`,
extrapolating to 15. -/
theorem c1_no_clamp_on_oversized_advance :
    (clampAnim.update 15).frame = 15
    ∧ (clampAnim.update 15).current_duration = 10
    ∧ (clampAnim.update 15).frame ≠ (clampAnim.update 15).current_duration
    ∧ ((clampAnim.update 15).frame : ℚ) / ((clampAnim.update 15).current_duration : ℚ)
        = 3 / 2
    ∧ ¬ (((clampAnim.update 15).frame : ℚ)
          / ((clampAnim.update 15).current_duration : ℚ) ≤ 1)
    ∧ (clampAnim.update 15).value = .ok (.float 15) := by
  have hf : (clampAnim.update 15).frame = 15 := by with_unfolding_all rfl
  have hd : (clampAnim.update 15).current_duration = 10 := by with_unfolding_all rfl
  refine ⟨hf, hd, ?_, ?_, ?_, ?_⟩
  · rw [hf, hd]; decide
  · rw [hf, hd]; norm_num
  · rw [hf, hd]; norm_num
  · with_unfolding_all rfl

/-- C1 (amended): `update` never clamps the frame counter; what holds is
that with the default `advance = 1` and positive durations the invariant
`0 ≤ frame ≤ duration` is preserved by every `update`, and under that
invariant the blend fraction `frame / duration` that `value()` passes to
the blend function lies in `[0, 1]`. -/
theorem c1_default_advance_fraction_in_unit_interval (s : Animation)
    (h0 : 0 ≤ s.frame) (h1 : s.frame ≤ s.current_duration)
    (h2 : 0 < s.current_duration) (h3 : s.durations.src.allPos = true) :
    (0 ≤ (s.update 1).frame
      ∧ (s.update 1).frame ≤ (s.update 1).current_duration
      ∧ 0 < (s.update 1).current_duration
      ∧ (s.update 1).durations.src.allPos = true)
    ∧ 0 ≤ (s.frame : ℚ) / (s.current_duration : ℚ)
    ∧ (s.frame : ℚ) / (s.current_duration : ℚ) ≤ 1 := by
  constructor
  · unfold Animation.update Animation.next_pair
    by_cases hlt : s.frame < s.current_duration
    · rw [if_pos hlt]
      exact ⟨(by omega : (0:ℤ) ≤ s.frame + 1),
        (by omega : s.frame + 1 ≤ s.current_duration), h2, h3⟩
    · rw [if_neg hlt]
      cases hp : s.pairs.next with
      | none => exact ⟨h0, h1, h2, h3⟩
      | some pr =>
          obtain ⟨ab, pairs'⟩ := pr
          cases hd : s.durations.next with
          | none => exact ⟨h0, h1, h2, h3⟩
          | some dd =>
              obtain ⟨d, durs'⟩ := dd
              obtain ⟨hdpos, hall⟩ := DurIter.next_pos s.durations h3 d durs'
                (by rw [hd])
              exact ⟨le_refl 0, le_of_lt hdpos, hdpos, hall⟩
  · constructor
    · apply div_nonneg
      · exact_mod_cast h0
      · exact_mod_cast le_of_lt h2
    · rw [div_le_one (by exact_mod_cast h2)]
      exact_mod_cast h1

/-- Witness for `c1_default_advance_fraction_in_unit_interval` at the
concrete fresh animation `clampAnim`. -/
theorem c1_default_advance_fraction_witness :
    (0 ≤ (clampAnim.update 1).frame
      ∧ (clampAnim.update 1).frame ≤ (clampAnim.update 1).current_duration
      ∧ 0 < (clampAnim.update 1).current_duration
      ∧ (clampAnim.update 1).durations.src.allPos = true)
    ∧ 0 ≤ (clampAnim.frame : ℚ) / (clampAnim.current_duration : ℚ)
    ∧ (clampAnim.frame : ℚ) / (clampAnim.current_duration : ℚ) ≤ 1 :=
  c1_default_advance_fraction_in_unit_interval clampAnim
    (by rw [clampAnim_frame]) (by rw [clampAnim_frame, clampAnim_duration]; decide)
    (by rw [clampAnim_duration]; decide) (by with_unfolding_all rfl)

/-! ## Claim C10: updates after the animation has finished -/

/-- Once `running` is false because the pair iterator is exhausted (the
frame counter then necessarily sits at or past the duration), any further
`update(advance)` is a no-op: the same `StopIteration` is raised again
before any attribute or the callback is touched. -/
theorem c10_update_after_finish_is_noop (s : Animation) (adv : ℤ)
    (hrun : s.running = false) (hfr : ¬ s.frame < s.current_duration)
    (hex : s.pairs.next = Option.none) :
    s.update adv = s
    ∧ (s.update adv).a = s.a ∧ (s.update adv).b = s.b
    ∧ (s.update adv).frame = s.frame
    ∧ (s.update adv).current_duration = s.current_duration
    ∧ (s.update adv).running = false
    ∧ (s.update adv).value = s.value
    ∧ (s.update adv).ncalls = s.ncalls := by
  have h := Animation.update_exhausted s adv hex hfr hrun
  refine ⟨h, ?_, ?_, ?_, ?_, ?_, ?_, ?_⟩ <;> rw [h]
  exact hrun

/-- The animation over `[0, 10, 20]` with uniform duration 2 after 6
default updates: both segments consumed, `running` is false. -/
def finishedAnim : Animation :=
  (animOf (.rep 2) [.int 0, .int 10, .int 20] .dispatch false).run 6

/-- Witness for `c10_update_after_finish_is_noop` on the concrete finished
animation, including an oversized `advance`. -/
theorem c10_update_after_finish_witness :
    finishedAnim.update 100 = finishedAnim
    ∧ (finishedAnim.update 100).a = finishedAnim.a
    ∧ (finishedAnim.update 100).b = finishedAnim.b
    ∧ (finishedAnim.update 100).frame = finishedAnim.frame
    ∧ (finishedAnim.update 100).current_duration = finishedAnim.current_duration
    ∧ (finishedAnim.update 100).running = false
    ∧ (finishedAnim.update 100).value = finishedAnim.value
    ∧ (finishedAnim.update 100).ncalls = finishedAnim.ncalls :=
  c10_update_after_finish_is_noop finishedAnim 100
    (by with_unfolding_all rfl)
    (by with_unfolding_all decide)
    (by with_unfolding_all rfl)

/-! ## Claim C3: behaviour on unregistered shapes -/

/-- The shapes with a registered `lerp` handler: `int`, `float`, `tuple`,
`Color`, `Surface`. -/
def lerpRegistered : PyVal → Bool
  | .int _ => true
  | .float _ => true
  | .tuple _ => true
  | .color _ _ _ _ => true
  | .surface _ => true
  | _ => false

/-- The shapes with a registered `invlerp` handler: `int` and `tuple`. -/
def invlerpRegistered : PyVal → Bool
  | .int _ => true
  | .tuple _ => true
  | _ => false

/-- C3 counterexample: on an unregistered shape, `lerp` and `invlerp` do
not raise an unimplemented-case error; the `pass` base implementation
silently returns `None` (an `ok` result, not an error). -/
theorem c3_unregistered_shape_silently_returns_none :
    lerp (.str "a") (.str "b") (1/2) = .ok .none
    ∧ invlerp (.str "a") (.str "b") (.str "c") = .ok .none
    ∧ invlerp (.surface 0) (.surface 1) (.float (1/2)) = .ok .none := by
  refine ⟨?_, ?_, ?_⟩ <;> with_unfolding_all rfl

/-- C3 (amended): for every first argument whose shape has no registered
handler, `lerp`/`invlerp` return Python `None` silently (the base
single-dispatch implementation is `pass`) instead of raising an error. -/
theorem c3_base_case_returns_none (a b x : PyVal) (t : ℚ) :
    (lerpRegistered a = false → lerp a b t = .ok .none)
    ∧ (invlerpRegistered a = false → invlerp a b x = .ok .none) := by
  cases a <;>
    simp [lerpRegistered, invlerpRegistered, lerp, invlerp]

/-- Witness for `c3_base_case_returns_none` on concrete unregistered
shapes (`str` for both families, `float` for `invlerp`). -/
theorem c3_base_case_witness :
    lerp (.str "q") (.int 1) (1/3) = .ok .none
    ∧ invlerp (.float 0) (.int 1) (.int 2) = .ok .none :=
  ⟨(c3_base_case_returns_none (.str "q") (.int 1) (.int 2) (1/3)).1 rfl,
   (c3_base_case_returns_none (.float 0) (.int 1) (.int 2) (1/3)).2 rfl⟩

/-! ## Claim C4: tuple blends and arity mismatch -/

/-- C4 counterexample: blending a 3-tuple against a 2-tuple does not fail
with an index error — `zip` silently truncates to the shorter arity and the
call succeeds with a 2-tuple. -/
theorem c4_mismatched_arity_silently_truncates :
    lerp (.tuple [.int 0, .int 0, .int 0]) (.tuple [.int 10, .int 10]) (1/2)
      = .ok (.tuple [.float 5, .float 5]) := by
  with_unfolding_all rfl

/-- Helper fact: `lerpZip` on two integer lists is exactly `zipWith` of the numeric
blend. -/
theorem lerpZip_int (xs ys : List ℤ) (t : ℚ) :
    lerpZip (xs.map .int) (ys.map .int) t
      = .ok (List.zipWith (fun a b => PyVal.float (_lerp (a : ℚ) (b : ℚ) t)) xs ys) := by
  induction xs generalizing ys with
  | nil => cases ys <;> rfl
  | cons x xs ih =>
      cases ys with
      | nil => rfl
      | cons y ys =>
          simp only [List.map_cons, List.zipWith_cons_cons]
          show (do
            let v ← lerp (.int x) (.int y) t
            let vs ← lerpZip (xs.map .int) (ys.map .int) t
            Except.ok (v :: vs)) = _
          rw [ih ys]
          rfl

/-- C4 (amended): on integer tuples the composite blend is element-wise
over `zip(a, b)`: equal arities blend component-by-component, mismatched
arities are silently truncated to the shorter tuple (never an error). -/
theorem c4_tuple_lerp_elementwise_zip (xs ys : List ℤ) (t : ℚ) :
    lerp (.tuple (xs.map .int)) (.tuple (ys.map .int)) t
      = .ok (.tuple
          (List.zipWith (fun a b => .float (_lerp (a : ℚ) (b : ℚ) t)) xs ys)) := by
  show (lerpZip (xs.map .int) (ys.map .int) t).map PyVal.tuple = _
  rw [lerpZip_int]
  rfl

/-! ## Claim C5: inverse-lerp -/

/-- C5: the numeric (`int`) part of the claim holds — `invlerp` computes
exactly `(x - a) / (b - a)`, which inverts `lerp`, and a zero-width
interval propagates a division error.  The tuple handler, however, is
broken in the source: its generator expression references the undefined
name `t` (and ignores `x` entirely), so blending any non-empty tuples
raises `NameError` instead of computing the element-wise fractions.  This
theorem evaluates the code at the failing input. -/
theorem c5_tuple_invlerp_raises_nameerror :
    invlerp (.tuple [.int 0, .int 0]) (.tuple [.int 10, .int 10])
        (.tuple [.int 5, .int 5]) = .error .nameError
    ∧ invlerp (.int 0) (.int 10) (.float 5) = .ok (.float (1/2))
    ∧ invlerp (.int 3) (.int 3) (.float 7) = .error .zeroDivisionError := by
  refine ⟨?_, ?_, ?_⟩ <;> with_unfolding_all rfl

/-! ## Claim C6: the lerp/invlerp round trip -/

/-- C6 counterexample: `invlerp` has no registered `float` handler, so for
real (float) endpoints the round trip does not return the fraction — the
base implementation returns `None`. -/
theorem c6_float_roundtrip_returns_none :
    lerp (.float 0) (.float 1) (1/2) = .ok (.float (1/2))
    ∧ invlerp (.float 0) (.float 1) (.float (1/2)) = .ok .none
    ∧ (Except.ok PyVal.none : Except PyErr PyVal) ≠ .ok (.float (1/2)) := by
  refine ⟨by with_unfolding_all rfl, by with_unfolding_all rfl, ?_⟩
  intro h
  exact PyVal.noConfusion (Except.ok.inj h)

/-- C6 (amended): the round trip `invlerp(a, b, lerp(a, b, t)) = t` holds
exactly (the model computes with exact rationals) for integer endpoints
`a ≠ b` — the only numeric shape registered with `invlerp`; float
endpoints instead fall through to the base case (see the counterexample). -/
theorem c6_int_roundtrip_exact (a b : ℤ) (t : ℚ) (hab : a ≠ b) :
    lerp (.int a) (.int b) t = .ok (.float (_lerp (a : ℚ) (b : ℚ) t))
    ∧ invlerp (.int a) (.int b) (.float (_lerp (a : ℚ) (b : ℚ) t))
        = .ok (.float t) := by
  have hba : (b : ℚ) - (a : ℚ) ≠ 0 := sub_ne_zero.mpr (by exact_mod_cast hab.symm)
  constructor
  · rfl
  · show (_invlerp (a : ℚ) (b : ℚ) (_lerp (a : ℚ) (b : ℚ) t)).map PyVal.float
        = .ok (.float t)
    unfold _invlerp
    rw [if_neg hba]
    have hdiv : (_lerp (a : ℚ) (b : ℚ) t - a) / ((b : ℚ) - a) = t := by
      rw [div_eq_iff hba]
      unfold _lerp
      ring
    show Except.ok (PyVal.float ((_lerp (a : ℚ) (b : ℚ) t - a) / ((b : ℚ) - a)))
        = .ok (.float t)
    rw [hdiv]

/-- Witness for `c6_int_roundtrip_exact` at `a = 0`, `b = 10`, `t = 1/3`. -/
theorem c6_int_roundtrip_witness :
    lerp (.int 0) (.int 10) (1/3)
      = .ok (.float (_lerp ((0 : ℤ) : ℚ) ((10 : ℤ) : ℚ) (1/3)))
    ∧ invlerp (.int 0) (.int 10) (.float (_lerp ((0 : ℤ) : ℚ) ((10 : ℤ) : ℚ) (1/3)))
      = .ok (.float (1/3)) :=
  c6_int_roundtrip_exact 0 10 (1/3) (by decide)

/-! ## Claim C8: start() and the two-value requirement -/

/-- Helper fact: `PairIter.next` on an empty element list is `StopIteration`, cyclic or
not (`itertools.cycle` of an empty iterable is exhausted immediately). -/
theorem PairIter.next_nil (i : ℕ) (cyc : Bool) :
    PairIter.next ⟨[], i, cyc⟩ = Option.none := by
  unfold PairIter.next
  rw [dif_neg (by simp), dif_neg (by simp)]

/-- Helper fact: `PairIter.next` at the head of a fresh iterator yields the first pair. -/
theorem PairIter.next_cons (p : PyVal × PyVal) (tl : List (PyVal × PyVal))
    (cyc : Bool) :
    PairIter.next ⟨p :: tl, 0, cyc⟩ = some (p, ⟨p :: tl, 1, cyc⟩) := by
  unfold PairIter.next
  rw [dif_pos (by simp)]
  rfl

/-- Helper fact: `nwise` of a list with fewer than two elements is empty. -/
theorem nwise_short (l : List PyVal) (h : l.length < 2) : nwise l = [] := by
  match l, h with
  | [], _ => rfl
  | [x], _ => rfl

/-- C8: `start()` on fewer than two values raises `StopIteration` out of
the very first `next_pair` (the error state is the object with the frame
counter reset, the fresh exhausted pair iterator installed and `running`
set — exactly what the failing constructor leaves behind); with at least
two values and an available duration it succeeds, with elapsed time 0, the
pair iterator rebuilt from the original values under the configured policy
and advanced past the first pair `(v0, v1)`, and the first duration
pulled. -/
theorem c8_start_requires_two_values (s : Animation) :
    (s.values.length < 2 →
      s.start = .error { s with
        frame := 0
        pairs := ⟨nwise s.values, 0, s.cyclic⟩
        running := true })
    ∧ (∀ v0 v1 rest d durs', s.values = v0 :: v1 :: rest →
        s.durations.next = some (d, durs') →
        s.start = .ok { s with
          a := v0
          b := v1
          frame := 0
          pairs := ⟨nwise s.values, 1, s.cyclic⟩
          current_duration := d
          durations := durs'
          running := true
          ncalls := if s.hasCallback then s.ncalls + 1 else s.ncalls }) := by
  constructor
  · intro hlen
    unfold Animation.start Animation.next_pair
    rw [show (⟨nwise s.values, 0, s.cyclic⟩ : PairIter)
          = ⟨[], 0, s.cyclic⟩ from by rw [nwise_short s.values hlen],
        PairIter.next_nil]
  · intro v0 v1 rest d durs' hvals hdurs
    unfold Animation.start Animation.next_pair
    rw [hvals]
    rw [show nwise (v0 :: v1 :: rest) = (v0, v1) :: nwise (v1 :: rest) from rfl,
        PairIter.next_cons]
    simp only [hdurs]

/-- A malformed animation configured with a single value. -/
def shortAnim : Animation :=
  { durations := ⟨.rep 5, 0⟩
    values := [.int 7]
    lerpfunc := .dispatch
    cyclic := false
    attr := ""
    hasCallback := false
    ncalls := 0
    a := .none
    b := .none
    current_duration := 0
    frame := 0
    pairs := ⟨[], 0, false⟩
    running := false }

/-- A well-formed animation configured with two values. -/
def twoAnim : Animation :=
  { durations := ⟨.rep 5, 0⟩
    values := [.int 1, .int 2]
    lerpfunc := .dispatch
    cyclic := false
    attr := ""
    hasCallback := false
    ncalls := 0
    a := .none
    b := .none
    current_duration := 0
    frame := 0
    pairs := ⟨[], 0, false⟩
    running := false }

/-- Witness for `c8_start_requires_two_values`: one value fails, two values
succeed with the first pair and duration pulled. -/
theorem c8_start_witness :
    shortAnim.start = .error { shortAnim with
      frame := 0
      pairs := ⟨nwise shortAnim.values, 0, shortAnim.cyclic⟩
      running := true }
    ∧ twoAnim.start = .ok { twoAnim with
      a := .int 1
      b := .int 2
      frame := 0
      pairs := ⟨nwise twoAnim.values, 1, twoAnim.cyclic⟩
      current_duration := 5
      durations := ⟨.rep 5, 1⟩
      running := true
      ncalls := if twoAnim.hasCallback then twoAnim.ncalls + 1 else twoAnim.ncalls } :=
  ⟨(c8_start_requires_two_values shortAnim).1 (by decide),
   (c8_start_requires_two_values twoAnim).2 (.int 1) (.int 2) [] 5 ⟨.rep 5, 1⟩
     rfl rfl⟩

/-! ## Claim C2: the `[0, 10, 20]` lifecycle -/

/-- An `update` at the end of a segment with another pair and duration
available rolls over into the next segment with the frame counter reset. -/
theorem Animation.update_rollover (s : Animation) (adv : ℤ)
    (hge : ¬ s.frame < s.current_duration) (ab : PyVal × PyVal)
    (pairs' : PairIter) (hp : s.pairs.next = some (ab, pairs'))
    (d : ℤ) (durs' : DurIter) (hd : s.durations.next = some (d, durs')) :
    s.update adv = { s with
      a := ab.1
      b := ab.2
      pairs := pairs'
      current_duration := d
      durations := durs'
      ncalls := if s.hasCallback then s.ncalls + 1 else s.ncalls
      frame := 0 } := by
  unfold Animation.update Animation.next_pair
  rw [if_neg hge, hp, hd]

/-- An `update` at the end of a segment with the pair iterator exhausted
flips `running` off and leaves everything else unchanged. -/
theorem Animation.update_finish (s : Animation) (adv : ℤ)
    (hge : ¬ s.frame < s.current_duration)
    (hp : s.pairs.next = Option.none) :
    s.update adv = { s with running := false } := by
  unfold Animation.update Animation.next_pair
  rw [if_neg hge, hp]

/-- The animation the lifecycle property talks about: values `[0, 10, 20]`,
uniform duration `D`, default blend, plain (non-cyclic) pair iteration. -/
def lifecycleAnim (D : ℤ) : Animation :=
  animOf (.rep D) [.int 0, .int 10, .int 20] .dispatch false

/-- The constructor leaves `lifecycleAnim D` in the first segment `(0, 10)`
with elapsed time 0. -/
theorem lifecycleAnim_eq (D : ℤ) :
    lifecycleAnim D = { durations := ⟨.rep D, 1⟩
                        values := [.int 0, .int 10, .int 20]
                        lerpfunc := .dispatch
                        cyclic := false
                        attr := ""
                        hasCallback := false
                        ncalls := 0
                        a := .int 0
                        b := .int 10
                        current_duration := D
                        frame := 0
                        pairs := ⟨[(.int 0, .int 10), (.int 10, .int 20)], 1, false⟩
                        running := true } := by
  with_unfolding_all rfl

/-- C2: over `[0, 10, 20]` with uniform positive duration `D` and the
default blend: after `D` default updates `value()` is exactly 10 and the
animation is still running; the next update rolls into the segment
`(10, 20)` (where `value()` is still 10); and from update `2D + 2` on —
both segments exhausted — `running` is false and `value()` is held at the
final value 20. -/
theorem c2_lifecycle (D : ℕ) (hD : 0 < D) :
    ((lifecycleAnim (D : ℤ)).run D).value = .ok (.float 10)
    ∧ ((lifecycleAnim (D : ℤ)).run D).running = true
    ∧ ((lifecycleAnim (D : ℤ)).run (D + 1)).a = .int 10
    ∧ ((lifecycleAnim (D : ℤ)).run (D + 1)).b = .int 20
    ∧ ((lifecycleAnim (D : ℤ)).run (D + 1)).value = .ok (.float 10)
    ∧ ∀ j : ℕ, ((lifecycleAnim (D : ℤ)).run (2 * D + 2 + j)).running = false
        ∧ ((lifecycleAnim (D : ℤ)).run (2 * D + 2 + j)).value = .ok (.float 20) := by
  have hDz : ((D : ℤ) : ℚ) ≠ 0 := by
    have : (D : ℤ) ≠ 0 := by exact_mod_cast hD.ne'
    exact_mod_cast this
  have hDz' : ¬ ((D : ℤ) = 0) := by exact_mod_cast hD.ne'
  have hfrac : (((D : ℤ) : ℚ) / ((D : ℤ) : ℚ)) = 1 := div_self hDz
  have hlerp1 : lerp (.int 0) (.int 10) 1 = .ok (.float 10) := by
    with_unfolding_all rfl
  have hlerp2 : lerp (.int 10) (.int 20) 1 = .ok (.float 20) := by
    with_unfolding_all rfl
  -- state after D updates: frame sits exactly at the duration
  have h1 : (lifecycleAnim (D : ℤ)).run D
      = { lifecycleAnim (D : ℤ) with frame := (D : ℤ) } := by
    rw [Animation.run_frames]
    · rw [lifecycleAnim_eq]
    · exact le_refl _
  -- the rollover into segment (10, 20)
  have h2 : (lifecycleAnim (D : ℤ)).run (D + 1)
      = { lifecycleAnim (D : ℤ) with
          a := .int 10
          b := .int 20
          pairs := ⟨[(.int 0, .int 10), (.int 10, .int 20)], 2, false⟩
          current_duration := (D : ℤ)
          durations := ⟨.rep (D : ℤ), 2⟩
          ncalls := 0
          frame := 0 } := by
    rw [Animation.run, h1, Animation.update_rollover _ 1 (lt_irrefl _)
      (.int 10, .int 20) ⟨[(.int 0, .int 10), (.int 10, .int 20)], 2, false⟩
      (by rw [lifecycleAnim_eq]; with_unfolding_all rfl)
      (D : ℤ) ⟨.rep (D : ℤ), 2⟩ (by rw [lifecycleAnim_eq]; with_unfolding_all rfl)]
    rw [lifecycleAnim_eq]
    with_unfolding_all rfl
  -- frame reaches the duration of the second segment
  have h3 : (lifecycleAnim (D : ℤ)).run (D + 1 + D)
      = { (lifecycleAnim (D : ℤ)).run (D + 1) with frame := (D : ℤ) } := by
    rw [Animation.run_add, Animation.run_frames]
    all_goals rw [h2]
  -- the exhausting update: running flips off, frame stays at the clamp point
  have h4 : (lifecycleAnim (D : ℤ)).run (2 * D + 2)
      = { (lifecycleAnim (D : ℤ)).run (D + 1) with
          frame := (D : ℤ)
          running := false } := by
    have e22 : 2 * D + 2 = (D + 1 + D) + 1 := by omega
    rw [e22, Animation.run, h3, h2,
      Animation.update_finish _ 1 (lt_irrefl _) (by with_unfolding_all rfl)]
  -- the finished state absorbs further updates
  have h5 : ∀ j : ℕ, (lifecycleAnim (D : ℤ)).run (2 * D + 2 + j)
      = (lifecycleAnim (D : ℤ)).run (2 * D + 2) := by
    intro j
    induction j with
    | zero => rfl
    | succ k ih =>
        rw [show 2 * D + 2 + (k + 1) = (2 * D + 2 + k) + 1 from rfl,
          Animation.run, ih, h4, Animation.update_exhausted]
        · rw [h2]; with_unfolding_all rfl
        · rw [h2]; exact lt_irrefl _
        · rw [h2]
  refine ⟨?_, ?_, ?_, ?_, ?_, ?_⟩
  · rw [h1, lifecycleAnim_eq]
    unfold Animation.value
    rw [if_neg hDz']
    show lerp (.int 0) (.int 10) (((D : ℤ) : ℚ) / ((D : ℤ) : ℚ)) = _
    rw [hfrac, hlerp1]
  · rw [h1, lifecycleAnim_eq]
  · rw [h2]
  · rw [h2]
  · rw [h2, lifecycleAnim_eq]
    unfold Animation.value
    rw [if_neg hDz']
    show lerp (.int 10) (.int 20) ((((0 : ℤ)) : ℚ) / ((D : ℤ) : ℚ))
        = Except.ok (.float 10)
    rw [show (((0 : ℤ)) : ℚ) / ((D : ℤ) : ℚ) = 0 by norm_num]
    with_unfolding_all rfl
  · intro j
    rw [h5 j, h4, h2]
    constructor
    · rfl
    · unfold Animation.value
      rw [if_neg hDz']
      show lerp (.int 10) (.int 20) (((D : ℤ) : ℚ) / ((D : ℤ) : ℚ)) = _
      rw [hfrac, hlerp2]

/-- Witness for `c2_lifecycle` at `D = 2`: value 10 at the boundary, the
segment then becomes `(10, 20)`, and after exhaustion (update 6 and
beyond) `running` is false with `value()` held at 20. -/
theorem c2_lifecycle_witness :
    ((lifecycleAnim ((2 : ℕ) : ℤ)).run 2).value = .ok (.float 10)
    ∧ ((lifecycleAnim ((2 : ℕ) : ℤ)).run 2).running = true
    ∧ ((lifecycleAnim ((2 : ℕ) : ℤ)).run 3).a = .int 10
    ∧ ((lifecycleAnim ((2 : ℕ) : ℤ)).run 3).b = .int 20
    ∧ ((lifecycleAnim ((2 : ℕ) : ℤ)).run 3).value = .ok (.float 10)
    ∧ ((lifecycleAnim ((2 : ℕ) : ℤ)).run 6).running = false
    ∧ ((lifecycleAnim ((2 : ℕ) : ℤ)).run 6).value = .ok (.float 20)
    ∧ ((lifecycleAnim ((2 : ℕ) : ℤ)).run 9).running = false
    ∧ ((lifecycleAnim ((2 : ℕ) : ℤ)).run 9).value = .ok (.float 20) :=
  have h := c2_lifecycle 2 (by decide)
  ⟨h.1, h.2.1, h.2.2.1, h.2.2.2.1, h.2.2.2.2.1,
   (h.2.2.2.2.2 0).1, (h.2.2.2.2.2 0).2, (h.2.2.2.2.2 3).1, (h.2.2.2.2.2 3).2⟩

/-! ## Claim C9: wave blend endpoints -/

/-- The computable parts of a `wavey_y` call on integer-coordinate
endpoints with `x1 ≠ x2`: the blended `x` is `_lerp x1 x2 t` and the
recovered progress fraction is exactly `t` (the `x`-inverse-lerp inverts
the `x`-lerp). -/
theorem wavey_progress_int (x1 y1 x2 y2 : ℤ) (t : ℚ) (hx : x1 ≠ x2) :
    wavey_progress (.tuple [.int x1, .int y1]) (.tuple [.int x2, .int y2]) t
      = .ok (_lerp (x1 : ℚ) (x2 : ℚ) t, t) := by
  have hx' : (x2 : ℚ) - (x1 : ℚ) ≠ 0 := sub_ne_zero.mpr (by exact_mod_cast hx.symm)
  have hdiv : (_lerp (x1 : ℚ) (x2 : ℚ) t - x1) / ((x2 : ℚ) - x1) = t := by
    rw [div_eq_iff hx']
    unfold _lerp
    ring
  show (do
    let xy1 ← unpack2 (.tuple [.int x1, .int y1])
    let xy2 ← unpack2 (.tuple [.int x2, .int y2])
    let xv ← lerp xy1.1 xy2.1 t
    let pv ← invlerp xy1.1 xy2.1 xv
    match toNum xv, toNum pv with
    | some xq, some pq => Except.ok (xq, pq)
    | _, _ => .error .typeError) = _
  show (do
    let xv ← lerp (.int x1) (.int x2) t
    let pv ← invlerp (.int x1) (.int x2) xv
    match toNum xv, toNum pv with
    | some xq, some pq => Except.ok (xq, pq)
    | _, _ => .error .typeError) = _
  show (do
    let pv ← invlerp (.int x1) (.int x2) (.float (_lerp (x1 : ℚ) (x2 : ℚ) t))
    match some (_lerp (x1 : ℚ) (x2 : ℚ) t), toNum pv with
    | some xq, some pq => Except.ok (xq, pq)
    | _, _ => .error .typeError) = _
  show (do
    let pv ← (_invlerp (x1 : ℚ) (x2 : ℚ) (_lerp (x1 : ℚ) (x2 : ℚ) t)).map PyVal.float
    match some (_lerp (x1 : ℚ) (x2 : ℚ) t), toNum pv with
    | some xq, some pq => Except.ok (xq, pq)
    | _, _ => .error .typeError) = _
  unfold _invlerp
  rw [if_neg hx', hdiv]
  rfl

/-- C9: for the wave blend over integer-coordinate endpoints with
`x1 ≠ x2` and an integer wave count, the result at fraction `t` is
`(lerp(x1, x2, t), baseline + sin(t · 2π · waves) · amplitude)` — the
progress fraction driving the sine is the inverse-lerp of the blended `x`,
which equals `t` — and at the two endpoints `t = 0` and `t = 1` the `y`
coordinate equals the baseline exactly, because `sin 0 = sin(2πk) = 0`. -/
theorem c9_wavey_endpoints_at_baseline (radius centery : ℚ) (waves : ℤ)
    (x1 y1 x2 y2 : ℤ) (hx : x1 ≠ x2) (t : ℚ) :
    wavey_y radius centery waves (.tuple [.int x1, .int y1])
        (.tuple [.int x2, .int y2]) t
      = .ok (_lerp (x1 : ℚ) (x2 : ℚ) t,
          (centery : ℝ) + Real.sin ((t : ℝ) * (2 * Real.pi) * (waves : ℝ))
            * (radius : ℝ))
    ∧ wavey_y radius centery waves (.tuple [.int x1, .int y1])
        (.tuple [.int x2, .int y2]) 0
      = .ok ((x1 : ℚ), (centery : ℝ))
    ∧ wavey_y radius centery waves (.tuple [.int x1, .int y1])
        (.tuple [.int x2, .int y2]) 1
      = .ok ((x2 : ℚ), (centery : ℝ)) := by
  have hgen : ∀ u : ℚ, wavey_y radius centery waves (.tuple [.int x1, .int y1])
      (.tuple [.int x2, .int y2]) u
      = .ok (_lerp (x1 : ℚ) (x2 : ℚ) u,
          (centery : ℝ) + Real.sin ((u : ℝ) * (2 * Real.pi) * (waves : ℝ))
            * (radius : ℝ)) := by
    intro u
    unfold wavey_y
    rw [wavey_progress_int x1 y1 x2 y2 u hx]
    rfl
  refine ⟨hgen t, ?_, ?_⟩
  · rw [hgen 0]
    have hs : Real.sin (((0 : ℚ) : ℝ) * (2 * Real.pi) * (waves : ℝ)) = 0 := by
      push_cast
      rw [zero_mul, zero_mul, Real.sin_zero]
    rw [hs, zero_mul, add_zero]
    have hl : _lerp (x1 : ℚ) (x2 : ℚ) 0 = (x1 : ℚ) := by
      unfold _lerp
      ring
    rw [hl]
  · rw [hgen 1]
    have hs : Real.sin (((1 : ℚ) : ℝ) * (2 * Real.pi) * (waves : ℝ)) = 0 := by
      push_cast
      rw [one_mul]
      rw [show 2 * Real.pi * (waves : ℝ) = ((2 * waves : ℤ) : ℝ) * Real.pi by
        push_cast; ring]
      exact Real.sin_int_mul_pi _
    rw [hs, zero_mul, add_zero]
    have hl : _lerp (x1 : ℚ) (x2 : ℚ) 1 = (x2 : ℚ) := by
      unfold _lerp
      ring
    rw [hl]

/-- Witness for `c9_wavey_endpoints_at_baseline`: the demo-like wave
(amplitude 25, baseline 50, 3 waves) over `x ∈ [0, 100]` starts and ends
on the baseline. -/
theorem c9_wavey_endpoints_witness :
    wavey_y 25 50 3 (.tuple [.int 0, .int 7]) (.tuple [.int 100, .int 7]) 0
      = .ok (((0 : ℤ) : ℚ), ((50 : ℚ) : ℝ))
    ∧ wavey_y 25 50 3 (.tuple [.int 0, .int 7]) (.tuple [.int 100, .int 7]) 1
      = .ok (((100 : ℤ) : ℚ), ((50 : ℚ) : ℝ)) :=
  ⟨(c9_wavey_endpoints_at_baseline 25 50 3 0 7 100 7 (by decide) 0).2.1,
   (c9_wavey_endpoints_at_baseline 25 50 3 0 7 100 7 (by decide) 0).2.2⟩

/-! ## Claim C7: driver end-of-sequence behaviour -/

/-- The `while self.running` loop runs no iteration once `running` is
false. -/
theorem AnimateDemo.runFor_stopped (s : DemoState) (h : s.running = false)
    (n : ℕ) : AnimateDemo.runFor s n = some s := by
  cases n with
  | zero => rfl
  | succ m =>
      unfold AnimateDemo.runFor
      rw [h]
      simp

/-- C7 (amended): with the animation sequence exhausted
(`animation = None`) and no pending events, each tick with a non-empty
trail removes exactly the oldest trail entry and appends nothing (the only
other state change is the always-advancing actor animation); once the
trail is empty the loop posts a quit event on **each** of the remaining
ticks — two in total, not one: once on the tick that finds the trail
empty, and once more on the final tick that runs after `events()` has
consumed the quit event and cleared `running`. -/
theorem c7_driver_drain_then_quit_twice (s : DemoState) (n : ℕ)
    (hanim : s.animation = Option.none) (hq : s.queue = [])
    (hrun : s.running = true) :
    (∀ p rest, s.trail = p :: rest →
      AnimateDemo.tick s
        = some { s with actor := s.actor.update 1, trail := rest })
    ∧ (s.trail = [] →
      AnimateDemo.runFor s (n + 2)
        = some { s with
            actor := (s.actor.update 1).update 1
            running := false
            queue := [.quit]
            quitCount := s.quitCount + 2 }) := by
  obtain ⟨ac, anim, ans, rc, tr, qu, ru, qc⟩ := s
  simp only at hanim hq hrun
  subst hanim
  subst hq
  subst hrun
  constructor
  · intro p rest htr
    simp only at htr
    subst htr
    rfl
  · intro htr
    simp only at htr
    subst htr
    rw [show AnimateDemo.runFor
          ⟨ac, Option.none, ans, rc, [], [], true, qc⟩ (n + 2)
        = AnimateDemo.runFor
          ⟨(ac.update 1).update 1, Option.none, ans, rc, [], [.quit], false,
            qc + 2⟩ n from rfl]
    exact AnimateDemo.runFor_stopped _ rfl n

/-- The actor animation of the demo: surfaces cycled with the `hold`
blend, cyclic pair iteration, cyclic durations `[30, 15, 15]`, and a
per-pair callback. -/
def actorAnim : Animation :=
  match Animation.make (.cyc [30, 15, 15])
      [.surface 0, .surface 1, .surface 2, .surface 2] .hold true "" true with
  | .ok s => s
  | .error s => s

/-- A driver state just after the last animation finished and the trail
has fully drained. -/
def drainedDemo : DemoState :=
  { actor := actorAnim
    animation := Option.none
    animations := []
    rect := ⟨0, 0, 10, 10⟩
    trail := []
    queue := []
    running := true
    quitCount := 0 }

/-- C7 counterexample: from a drained driver state, the remaining run
posts the quit event **twice**, not exactly once (the second posting
happens on the final tick, after the first quit event has already cleared
`running`); the count is stable at 2 from there on. -/
theorem c7_quit_posted_twice_not_once :
    (AnimateDemo.runFor drainedDemo 5).map DemoState.quitCount = some 2
    ∧ (AnimateDemo.runFor drainedDemo 9).map DemoState.quitCount = some 2 := by
  constructor <;> with_unfolding_all rfl

/-- A driver state with two trail entries left to drain. -/
def drainingDemo : DemoState :=
  { drainedDemo with trail := [(1, 2), (3, 4)] }

/-- Witness for `c7_driver_drain_then_quit_twice`: one tick removes
exactly the oldest trail entry, and from the empty trail the loop halts
with exactly two posted quit events. -/
theorem c7_driver_drain_witness :
    AnimateDemo.tick drainingDemo
      = some { drainingDemo with
          actor := drainingDemo.actor.update 1
          trail := [(3, 4)] }
    ∧ AnimateDemo.runFor drainedDemo 7
      = some { drainedDemo with
          actor := (drainedDemo.actor.update 1).update 1
          running := false
          queue := [.quit]
          quitCount := drainedDemo.quitCount + 2 } :=
  ⟨(c7_driver_drain_then_quit_twice drainingDemo 0 rfl rfl rfl).1 (1, 2) [(3, 4)] rfl,
   (c7_driver_drain_then_quit_twice drainedDemo 5 rfl rfl rfl).2 rfl⟩
